import Mathlib

/-!
Verification development for the `simplecache` package of django-crimpycache.

The Python source (`simplecache/cache.py`, `simplecache/models.py`) is shallowly
embedded here.  Strings are `List Char`; the Django cache backend is an explicit
association-list store threaded through every operation, together with a log of
the backend calls made (get / set / add / incr).  External collaborators are
parameters of the embedding:

* `hashlib.md5(...).hexdigest()` is a parameter `md5 : List Char → List Char`
  (an external library function; no claim depends on the digest's contents);
* `django.utils.encoding.smart_str(key, encoding='ascii', errors='ignore')`
  is embedded as `smart_str_ascii`, which drops the non-ASCII characters
  (the source comment: "force to bytestring to make any unicode safe");
* the ORM (`Model.objects.get/filter/all`) is a parameter supplying the value
  the producer callback would return.

Python values are embedded as `PyVal` (`None`, `int`, `str` suffice for every
value the claims exercise; Python's falsy test is `pyTruthy`).
-/

/-- Embedded Python values: `None`, integers, strings. -/
inductive PyVal where
  | none : PyVal
  | int (n : Int) : PyVal
  | str (s : List Char) : PyVal
deriving DecidableEq, Repr

/-- Python truthiness (`if not version:` in the source): `None`, `0` and `""`
are falsy, everything else is truthy. -/
def pyTruthy : PyVal → Bool
  | PyVal.none => false
  | PyVal.int n => decide (n ≠ 0)
  | PyVal.str s => decide (s ≠ [])

/-- Python `str(...)` / `'%s' % ...` formatting for the embedded values. -/
def pyStr : PyVal → List Char
  | PyVal.none => "None".data
  | PyVal.int n => (toString n).data
  | PyVal.str s => s

/-- Cache-entry timeout: `None` (never expires), an explicit number of seconds,
or Django's `DEFAULT_TIMEOUT` sentinel (used when `add`/`set` is called without
a timeout argument; it resolves to the backend's configured default, which is
not "no expiry"). -/
inductive Timeout where
  | never : Timeout
  | secs (n : Nat) : Timeout
  | defaultT : Timeout
deriving DecidableEq, Repr

/-- A backend call, for the log of backend traffic. -/
inductive BOp where
  | get (k : List Char) : BOp
  | set (k : List Char) (v : PyVal) (t : Timeout) : BOp
  | add (k : List Char) (v : PyVal) : BOp
  | incrOp (k : List Char) : BOp
deriving DecidableEq, Repr

/-- Python exceptions surfaced by the embedded `models.py` code paths:
`AssertionError` from the declared-field-set / declared-partition `assert`
statements (the spec's name for this programmer error is ConfigurationError),
and `KeyError` from a plain dict lookup. -/
inductive PyErr where
  | assertionError : PyErr
  | keyError : PyErr
deriving DecidableEq, Repr

/-- Association-list lookup (first match), used for the backend store and for
the manager's field-set lookup dict. -/
def alGet {α β : Type} [DecidableEq α] : List (α × β) → α → Option β
  | [], _ => Option.none
  | (k, v) :: rest, a => if k = a then some v else alGet rest a

/-- Association-list update: replace the binding if the key is present,
append it otherwise (Python dict / backend `set` semantics). -/
def alSet {α β : Type} [DecidableEq α] : List (α × β) → α → β → List (α × β)
  | [], a, b => [(a, b)]
  | (k, v) :: rest, a, b => if k = a then (a, b) :: rest else (k, v) :: alSet rest a b

/-- The backend key/value store: key ↦ (value, timeout). -/
def Store : Type := List (List Char × (PyVal × Timeout))

/-- Backend world: the store plus the log of backend calls made so far. -/
structure W where
  st : Store
  log : List BOp

/-- The value the backend's `get` returns for a key: the stored value, or
`None` when the key is absent (Django's `cache.get` default). -/
def djGetVal (st : Store) (k : List Char) : PyVal :=
  match alGet st k with
  | some vt => vt.1
  | Option.none => PyVal.none

/-- Backend `cache.get(key)`. -/
def djGet (w : W) (k : List Char) : PyVal × W :=
  (djGetVal w.st k, ⟨w.st, w.log ++ [BOp.get k]⟩)

/-- Backend `cache.set(key, value, timeout)`. -/
def djSet (w : W) (k : List Char) (v : PyVal) (t : Timeout) : W :=
  ⟨alSet w.st k (v, t), w.log ++ [BOp.set k v t]⟩

/-- Backend `cache.add(key, value)` (no timeout argument in the source, so the
entry is stored with the backend's `DEFAULT_TIMEOUT`); only writes when the
key is absent, returns whether it wrote. -/
def djAdd (w : W) (k : List Char) (v : PyVal) : W × Bool :=
  match alGet w.st k with
  | some _ => (⟨w.st, w.log ++ [BOp.add k v]⟩, false)
  | Option.none => (⟨alSet w.st k (v, Timeout.defaultT), w.log ++ [BOp.add k v]⟩, true)

/-- Result of backend `cache.incr(key)`: success, `ValueError` (key absent),
or `TypeError` (present value not a number, e.g. under the locmem backend). -/
inductive IncrRes where
  | ok (w : W) : IncrRes
  | valueError (w : W) : IncrRes
  | typeError (w : W) : IncrRes

/-- Backend `cache.incr(key)`: add 1 to the stored integer, keeping its
timeout; raise `ValueError` when absent. -/
def djIncr (w : W) (k : List Char) : IncrRes :=
  match alGet w.st k with
  | Option.none => IncrRes.valueError ⟨w.st, w.log ++ [BOp.incrOp k]⟩
  | some (PyVal.int n, t) => IncrRes.ok ⟨alSet w.st k (PyVal.int (n + 1), t), w.log ++ [BOp.incrOp k]⟩
  | some _ => IncrRes.typeError ⟨w.st, w.log ++ [BOp.incrOp k]⟩

namespace SimpleCache

/-- `smart_str(key, encoding='ascii', errors='ignore')`: ASCII transliteration
dropping every non-ASCII character. -/
def smart_str_ascii (s : List Char) : List Char :=
  s.filter (fun c => decide (c.toNat ≤ 127))

/-- `re.sub(r'[^!-\u007F]', '-', cache_key, re.UNICODE)`.  The source
passes `re.UNICODE` (whose numeric value is 32) in the positional `count`
argument of `re.sub`, so at most the first 32 characters outside the kept
range 33..127 are replaced by `'-'`; the rest of the string is unchanged. -/
def reSubNonPrintable : Nat → List Char → List Char
  | _, [] => []
  | count, c :: rest =>
    if 33 ≤ c.toNat ∧ c.toNat ≤ 127 then c :: reSubNonPrintable count rest
    else
      match count with
      | 0 => c :: rest
      | n + 1 => '-' :: reSubNonPrintable n rest

/-- `safe_cache_key(key, no_limit=False)` from `simplecache/cache.py`.
`md5` is `hashlib.md5(...).hexdigest()` (external). -/
def safe_cache_key (md5 : List Char → List Char) (key : List Char) (no_limit : Bool) : List Char :=
  let cache_key := smart_str_ascii key
  let cache_key :=
    if 230 < cache_key.length then
      if !no_limit then cache_key.take 197 ++ '-' :: md5 (cache_key.take 500)
      else md5 cache_key
    else cache_key
  reSubNonPrintable 32 cache_key

/-- `VERSION_SUFFIX = '.version'`. -/
def VERSION_SUFFIX : List Char := ".version".data

/-- The backend key of a name's version record:
`safe_cache_key(key) + VERSION_SUFFIX` (as computed in `get_version`/`incr`). -/
def vkeyOf (md5 : List Char → List Char) (key : List Char) : List Char :=
  safe_cache_key md5 key false ++ VERSION_SUFFIX

/-- `get_version(key)`: read the version record, creating it as `1` with no
expiry (`cache.set(version_key, 1, None)`) when absent or falsy. -/
def get_version (md5 : List Char → List Char) (w : W) (key : List Char) : PyVal × W :=
  let version_key := vkeyOf md5 key
  let (v, w1) := djGet w version_key
  if pyTruthy v then (v, w1)
  else (PyVal.int 1, djSet w1 version_key (PyVal.int 1) Timeout.never)

/-- `version(key)`: `'%s:%s' % (safe_cache_key(key), get_version(key))`. -/
def version (md5 : List Char → List Char) (w : W) (key : List Char) : List Char × W :=
  let (v, w1) := get_version md5 w key
  (safe_cache_key md5 key false ++ ':' :: pyStr v, w1)

/-- `getf(key, f, ttl=60*60*23)`: item plus refreshed flag.  The last `Nat`
component counts how many times the producer `f` was invoked. -/
def getf (md5 : List Char → List Char) (w : W) (key : List Char) (f : Unit → PyVal)
    (ttl : Timeout) : (PyVal × Bool) × W × Nat :=
  let safe_key := safe_cache_key md5 key false
  let (item, w1) := djGet w safe_key
  if item = PyVal.none then
    let item := f ()
    ((item, true), djSet w1 safe_key item ttl, 1)
  else ((item, false), w1, 0)

/-- `get(key, f, ttl=60*60*23)`: `getf` without the refreshed flag. -/
def get (md5 : List Char → List Char) (w : W) (key : List Char) (f : Unit → PyVal)
    (ttl : Timeout) : PyVal × W × Nat :=
  let r := getf md5 w key f ttl
  (r.1.1, r.2.1, r.2.2)

/-- `incr(key)`: `try: cache.incr(version_key) except ValueError:
cache.add(version_key, 1)`.  The `Bool` is true when an exception other than
the caught `ValueError` propagates (in which case nothing was written). -/
def incr (md5 : List Char → List Char) (w : W) (key : List Char) : W × Bool :=
  let version_key := vkeyOf md5 key
  match djIncr w version_key with
  | IncrRes.ok w' => (w', false)
  | IncrRes.valueError w' => ((djAdd w' version_key (PyVal.int 1)).1, false)
  | IncrRes.typeError w' => (w', true)

/-- The backend world after `incr(key)` returns or raises. -/
def incrS (md5 : List Char → List Char) (w : W) (key : List Char) : W :=
  (incr md5 w key).1

/-- `k` successive `incr(key)` calls. -/
def bumpIter (md5 : List Char → List Char) (key : List Char) : Nat → W → W
  | 0, w => w
  | n + 1, w => bumpIter md5 key n (incrS md5 w key)

end SimpleCache

/-- Python string `<` on code points, as used by `sorted(...)` on field-name
tuples: lexicographic comparison of the character lists. -/
def strLe : List Char → List Char → Bool
  | [], _ => true
  | _ :: _, [] => false
  | a :: as, b :: bs => if a < b then true else if b < a then false else strLe as bs

/-- `strLe` as a relation, for the sorting lemmas. -/
def strLeP (a b : List Char) : Prop := strLe a b = true

instance : DecidableRel strLeP := fun a b => decEq (strLe a b) true

theorem strLe_cons_cons (x y : Char) (xs ys : List Char) :
    strLe (x :: xs) (y :: ys) = if x < y then true else if y < x then false else strLe xs ys :=
  rfl

instance : IsTotal (List Char) strLeP where
  total a := by
    induction a with
    | nil => intro b; left; rfl
    | cons x xs ih =>
      intro b
      cases b with
      | nil => right; rfl
      | cons y ys =>
        rcases lt_trichotomy x y with h | h | h
        · left; simp only [strLeP, strLe_cons_cons, if_pos h]
        · subst h
          rcases ih ys with h2 | h2
          · left; simpa only [strLeP, strLe_cons_cons, lt_irrefl, if_neg, ite_false] using h2
          · right; simpa only [strLeP, strLe_cons_cons, lt_irrefl, if_neg, ite_false] using h2
        · right; simp only [strLeP, strLe_cons_cons, if_pos h]

instance : IsTrans (List Char) strLeP where
  trans a := by
    induction a with
    | nil => intro b c _ _; rfl
    | cons x xs ih =>
      intro b c h1 h2
      cases b with
      | nil => exact absurd h1 (by simp [strLeP, strLe])
      | cons y ys =>
        cases c with
        | nil => exact absurd h2 (by simp [strLeP, strLe])
        | cons z zs =>
          simp only [strLeP, strLe_cons_cons] at h1 h2 ⊢
          rcases lt_trichotomy x y with hxy | hxy | hxy
          · rcases lt_trichotomy y z with hyz | hyz | hyz
            · rw [if_pos (hxy.trans hyz)]
            · subst hyz; rw [if_pos hxy]
            · rw [if_neg (asymm hyz), if_pos hyz] at h2; exact absurd h2 (by simp)
          · subst hxy
            rw [if_neg (lt_irrefl x), if_neg (lt_irrefl x)] at h1
            rcases lt_trichotomy x z with hyz | hyz | hyz
            · rw [if_pos hyz]
            · subst hyz
              rw [if_neg (lt_irrefl x), if_neg (lt_irrefl x)] at h2 ⊢
              exact ih ys zs h1 h2
            · rw [if_neg (asymm hyz), if_pos hyz] at h2; exact absurd h2 (by simp)
          · rw [if_neg (asymm hxy), if_pos hxy] at h1; exact absurd h1 (by simp)

instance : IsAntisymm (List Char) strLeP where
  antisymm a := by
    induction a with
    | nil =>
      intro b _ h2
      cases b with
      | nil => rfl
      | cons y ys => exact absurd h2 (by simp [strLeP, strLe])
    | cons x xs ih =>
      intro b h1 h2
      cases b with
      | nil => exact absurd h1 (by simp [strLeP, strLe])
      | cons y ys =>
        simp only [strLeP, strLe_cons_cons] at h1 h2
        rcases lt_trichotomy x y with hxy | hxy | hxy
        · rw [if_neg (asymm hxy), if_pos hxy] at h2; exact absurd h2 (by simp)
        · subst hxy
          rw [if_neg (lt_irrefl x), if_neg (lt_irrefl x)] at h1 h2
          rw [ih ys h1 h2]
        · rw [if_neg (asymm hxy), if_pos hxy] at h1; exact absurd h1 (by simp)

/-- Python `sorted(...)` on a collection of field-name strings (code-point
lexicographic order). -/
def sortNames (l : List (List Char)) : List (List Char) :=
  List.insertionSort strLeP l

/-- An element of a `cache_key_fields` declaration: either a bare string or a
tuple of field names (`models.py` normalizes a bare string `key` to `(key,)`). -/
inductive CKeySpec where
  | single (f : List Char) : CKeySpec
  | multi (fs : List (List Char)) : CKeySpec
deriving DecidableEq, Repr

/-- The `if type(key) == str: key = (key,)` normalization. -/
def CKeySpec.norm : CKeySpec → List (List Char)
  | CKeySpec.single f => [f]
  | CKeySpec.multi fs => fs

/-- The per-entity declarations a `CacheMixin` model class carries:
`_meta.db_table`, `cache_key_fields`, `cache_key_partitions`, `cache_key_all`. -/
structure MgrModel where
  db_table : List Char
  cache_key_fields : List CKeySpec
  cache_key_partitions : List (List Char)
  cache_key_all : List Char

/-- The class-level `_cache_key_fields_lookup` dict: canonical sorted tuple of
field names ↦ field names in declared order.  It is a single dict shared by
every `CacheManager` instance (a class attribute mutated in `__init__`), so it
is threaded through explicitly and each construction extends the same dict. -/
def LookupDict : Type := List (List (List Char) × List (List Char))

/-- A `**kwargs` dict: its keys in call-site (insertion) order plus the mapping
from field name to value.  An ORM instance is likewise embedded as its
field-value mapping (`values[field]` and `getattr(values, field)` both become
function application). -/
structure Kwargs where
  names : List (List Char)
  val : List Char → PyVal

namespace CacheManager

/-- `_generate_cache_key_dict_key(key)` for a tuple argument:
`tuple(sorted(key))` (the bare-string branch is handled by `CKeySpec.norm`
before this is called, as in the source). -/
def generate_cache_key_dict_key (key : List (List Char)) : List (List Char) :=
  sortNames key

/-- `CacheManager.__init__(model_class)`: add each declared field-set to the
shared class-level lookup dict, keyed by its canonical sorted tuple. -/
def init (d : LookupDict) (m : MgrModel) : LookupDict :=
  m.cache_key_fields.foldl
    (fun d k => alSet d (generate_cache_key_dict_key (CKeySpec.norm k)) (CKeySpec.norm k)) d

/-- `_generate_cache_key_from_fields(ordered_field_names, values)`:
`db_table + ''.join('-%s-%s' % (field, str(value)))` in the given field
order. -/
def generate_cache_key_from_fields (m : MgrModel) (ordered_field_names : List (List Char))
    (values : List Char → PyVal) : List Char :=
  m.db_table ++
    ordered_field_names.foldl (fun acc field => acc ++ '-' :: field ++ '-' :: pyStr (values field)) []

/-- `_generate_cache_key_from_partition(partition, value)`:
`'%s-%s-%s' % (db_table, partition, value)`. -/
def generate_cache_key_from_partition (m : MgrModel) (partition : List Char) (value : PyVal) :
    List Char :=
  m.db_table ++ '-' :: partition ++ '-' :: pyStr value

/-- `_generate_cache_key_from_label(label)`: `db_table + '-' + label`. -/
def generate_cache_key_from_label (m : MgrModel) (label : List Char) : List Char :=
  m.db_table ++ '-' :: label

/-- `get_version_for_fields(key, values)`: re-canonicalize `key`, look the
declared order up in the shared dict (a plain `dict[...]` access, so a missing
entry raises `KeyError`), and version the composite key. -/
def get_version_for_fields (md5 : List Char → List Char) (d : LookupDict) (m : MgrModel)
    (w : W) (key : List (List Char)) (values : List Char → PyVal) :
    Except PyErr (List Char × W) :=
  match alGet d (generate_cache_key_dict_key key) with
  | Option.none => Except.error PyErr.keyError
  | some ordered =>
    Except.ok (SimpleCache.version md5 w (generate_cache_key_from_fields m ordered values))

/-- `get_version_for_partition(partition, value)`. -/
def get_version_for_partition (md5 : List Char → List Char) (m : MgrModel) (w : W)
    (partition : List Char) (value : PyVal) : List Char × W :=
  SimpleCache.version md5 w (generate_cache_key_from_partition m partition value)

/-- `get_version_for_all()`. -/
def get_version_for_all (md5 : List Char → List Char) (m : MgrModel) (w : W) : List Char × W :=
  SimpleCache.version md5 w (generate_cache_key_from_label m m.cache_key_all)

/-- `CacheManager.getf(**kwargs)`: assert the canonicalized argument names are
a declared field-set (an `AssertionError` — the spec's ConfigurationError —
raised before any backend access), then fetch-or-compute at the versioned
composite key.  `ormGet` is the value `model_class.objects.get(**kwargs)`
would return; the `Nat` counts producer invocations. -/
def getf (md5 : List Char → List Char) (d : LookupDict) (m : MgrModel) (w : W)
    (kw : Kwargs) (ormGet : PyVal) : Except PyErr (PyVal × Bool) × W × Nat :=
  let key := generate_cache_key_dict_key kw.names
  match alGet d key with
  | Option.none => (Except.error PyErr.assertionError, w, 0)
  | some ordered =>
    match get_version_for_fields md5 d m w ordered kw.val with
    | Except.error e => (Except.error e, w, 0)
    | Except.ok (vkey, w1) =>
      let r := SimpleCache.getf md5 w1 vkey (fun _ => ormGet) (Timeout.secs (60 * 60 * 23))
      (Except.ok r.1, r.2.1, r.2.2)

/-- `CacheManager.get(**kwargs)`: `getf` without the refreshed flag. -/
def get (md5 : List Char → List Char) (d : LookupDict) (m : MgrModel) (w : W)
    (kw : Kwargs) (ormGet : PyVal) : Except PyErr PyVal × W × Nat :=
  let r := getf md5 d m w kw ormGet
  (r.1.map (fun p => p.1), r.2.1, r.2.2)

/-- `CacheManager.partitionf(partition, value)`: assert the partition is
declared (an `AssertionError` — the spec's ConfigurationError — raised before
any backend access), then fetch-or-compute the versioned partition key.
`ormFilter` is the value `objects.filter(partition=value)` would return. -/
def partitionf (md5 : List Char → List Char) (m : MgrModel) (w : W)
    (partition : List Char) (value : PyVal) (ormFilter : PyVal) :
    Except PyErr (PyVal × Bool) × W × Nat :=
  if partition ∈ m.cache_key_partitions then
    let vw := get_version_for_partition md5 m w partition value
    let r := SimpleCache.getf md5 vw.2 vw.1 (fun _ => ormFilter) (Timeout.secs (60 * 60 * 23))
    (Except.ok r.1, r.2.1, r.2.2)
  else (Except.error PyErr.assertionError, w, 0)

/-- `CacheManager.allf()`. -/
def allf (md5 : List Char → List Char) (m : MgrModel) (w : W) (ormAll : PyVal) :
    Except PyErr (PyVal × Bool) × W × Nat :=
  let vw := get_version_for_all md5 m w
  let r := SimpleCache.getf md5 vw.2 vw.1 (fun _ => ormAll) (Timeout.secs (60 * 60 * 23))
  (Except.ok r.1, r.2.1, r.2.2)

end CacheManager

/-- `invalidate_cache(sender, instance)` for a tracked (`CacheMixin`) sender:
bump each declared field-set's composite key built from the instance's current
values, each declared partition's key, and the `<entity>-all` label key. -/
def invalidate_cache (md5 : List Char → List Char) (m : MgrModel)
    (inst : List Char → PyVal) (w : W) : W :=
  let w1 := m.cache_key_fields.foldl
    (fun w k => SimpleCache.incrS md5 w
      (CacheManager.generate_cache_key_from_fields m (CKeySpec.norm k) inst)) w
  let w2 := m.cache_key_partitions.foldl
    (fun w p => SimpleCache.incrS md5 w
      (CacheManager.generate_cache_key_from_partition m p (inst p))) w1
  SimpleCache.incrS md5 w2 (CacheManager.generate_cache_key_from_label m m.cache_key_all)

/-! ### Helper lemmas about the store and the embedded operations -/

theorem alGet_alSet {α β : Type} [DecidableEq α] (l : List (α × β)) (a : α) (b : β) (x : α) :
    alGet (alSet l a b) x = if x = a then some b else alGet l x := by
  induction l with
  | nil =>
    by_cases h : a = x
    · subst h; simp [alSet, alGet]
    · simp [alSet, alGet, h, Ne.symm h]
  | cons kv rest ih =>
    obtain ⟨k, v⟩ := kv
    by_cases hk : k = a
    · subst hk
      by_cases h : k = x
      · subst h; simp [alSet, alGet]
      · simp [alSet, alGet, h, Ne.symm h]
    · by_cases h : k = x
      · subst h
        simp [alSet, alGet, hk, Ne.symm hk]
      · simp [alSet, alGet, hk, h, ih]

theorem sortNames_perm_eq {l1 l2 : List (List Char)} (h : l1.Perm l2) :
    sortNames l1 = sortNames l2 :=
  List.eq_of_perm_of_sorted
    ((List.perm_insertionSort strLeP l1).trans (h.trans (List.perm_insertionSort strLeP l2).symm))
    (List.sorted_insertionSort strLeP l1) (List.sorted_insertionSort strLeP l2)

namespace SimpleCache

theorem getf_miss (md5 : List Char → List Char) (w : W) (key : List Char) (f : Unit → PyVal)
    (ttl : Timeout) (h : djGetVal w.st (safe_cache_key md5 key false) = PyVal.none) :
    getf md5 w key f ttl =
      ((f (), true),
        djSet ⟨w.st, w.log ++ [BOp.get (safe_cache_key md5 key false)]⟩
          (safe_cache_key md5 key false) (f ()) ttl, 1) := by
  simp only [getf, djGet]
  rw [if_pos h]

theorem getf_hit (md5 : List Char → List Char) (w : W) (key : List Char) (f : Unit → PyVal)
    (ttl : Timeout) (h : djGetVal w.st (safe_cache_key md5 key false) ≠ PyVal.none) :
    getf md5 w key f ttl =
      ((djGetVal w.st (safe_cache_key md5 key false), false),
        ⟨w.st, w.log ++ [BOp.get (safe_cache_key md5 key false)]⟩, 0) := by
  simp only [getf, djGet]
  rw [if_neg h]

theorem get_version_falsy (md5 : List Char → List Char) (w : W) (key : List Char)
    (h : pyTruthy (djGetVal w.st (vkeyOf md5 key)) = false) :
    get_version md5 w key =
      (PyVal.int 1,
        djSet ⟨w.st, w.log ++ [BOp.get (vkeyOf md5 key)]⟩ (vkeyOf md5 key)
          (PyVal.int 1) Timeout.never) := by
  simp only [get_version, djGet]
  rw [h]
  simp

theorem get_version_truthy (md5 : List Char → List Char) (w : W) (key : List Char)
    (h : pyTruthy (djGetVal w.st (vkeyOf md5 key)) = true) :
    get_version md5 w key =
      (djGetVal w.st (vkeyOf md5 key), ⟨w.st, w.log ++ [BOp.get (vkeyOf md5 key)]⟩) := by
  simp only [get_version, djGet]
  rw [h]
  simp

theorem incr_int (md5 : List Char → List Char) (w : W) (key : List Char) (n : Int) (t : Timeout)
    (h : alGet w.st (vkeyOf md5 key) = some (PyVal.int n, t)) :
    incrS md5 w key =
      ⟨alSet w.st (vkeyOf md5 key) (PyVal.int (n + 1), t),
        w.log ++ [BOp.incrOp (vkeyOf md5 key)]⟩ := by
  simp only [incrS, incr, djIncr]
  rw [h]

theorem incr_absent (md5 : List Char → List Char) (w : W) (key : List Char)
    (h : alGet w.st (vkeyOf md5 key) = Option.none) :
    incrS md5 w key =
      ⟨alSet w.st (vkeyOf md5 key) (PyVal.int 1, Timeout.defaultT),
        (w.log ++ [BOp.incrOp (vkeyOf md5 key)]) ++ [BOp.add (vkeyOf md5 key) (PyVal.int 1)]⟩ := by
  simp only [incrS, incr, djIncr]
  rw [h]
  simp only [djAdd]
  rw [h]

theorem incrS_frame (md5 : List Char → List Char) (w : W) (key : List Char) (j : List Char)
    (hj : j ≠ vkeyOf md5 key) :
    alGet (incrS md5 w key).st j = alGet w.st j := by
  simp only [incrS, incr, djIncr]
  rcases h : alGet w.st (vkeyOf md5 key) with _ | ⟨v, t⟩
  · simp only [djAdd]
    rw [h]
    simp only [alGet_alSet, if_neg hj]
  · cases v with
    | none => rfl
    | int n => simp only [alGet_alSet, if_neg hj]
    | str s => rfl

theorem bumpIter_int (md5 : List Char → List Char) (key : List Char) (k : Nat) :
    ∀ (w : W) (n : Int) (t : Timeout),
      alGet w.st (vkeyOf md5 key) = some (PyVal.int n, t) →
      alGet (bumpIter md5 key k w).st (vkeyOf md5 key) = some (PyVal.int (n + (k : Int)), t) := by
  induction k with
  | zero => intro w n t h; simpa using h
  | succ k ih =>
    intro w n t h
    have h1 : alGet (incrS md5 w key).st (vkeyOf md5 key) = some (PyVal.int (n + 1), t) := by
      rw [incr_int md5 w key n t h]
      simp [alGet_alSet]
    have h2 := ih (incrS md5 w key) (n + 1) t h1
    show alGet (bumpIter md5 key k (incrS md5 w key)).st (vkeyOf md5 key) = _
    rw [h2]
    have h3 : n + 1 + (k : Int) = n + ((k : Nat) + 1 : Nat) := by push_cast; ring
    rw [h3]

theorem get_version_wf (md5 : List Char → List Char) (w : W) (key : List Char)
    (h : alGet w.st (vkeyOf md5 key) = Option.none ∨
      ∃ n t, alGet w.st (vkeyOf md5 key) = some (PyVal.int n, t) ∧ 0 ≤ n) :
    ∃ a t', 1 ≤ a ∧ (get_version md5 w key).1 = PyVal.int a ∧
      alGet (get_version md5 w key).2.st (vkeyOf md5 key) = some (PyVal.int a, t') := by
  rcases h with h | ⟨n, t, h, hn⟩
  · have hf : pyTruthy (djGetVal w.st (vkeyOf md5 key)) = false := by
      simp [djGetVal, h, pyTruthy]
    refine ⟨1, Timeout.never, le_refl 1, ?_, ?_⟩
    · rw [get_version_falsy md5 w key hf]
    · rw [get_version_falsy md5 w key hf]
      simp [djSet, alGet_alSet]
  · have hv : djGetVal w.st (vkeyOf md5 key) = PyVal.int n := by simp [djGetVal, h]
    by_cases h0 : n = 0
    · have hf : pyTruthy (djGetVal w.st (vkeyOf md5 key)) = false := by
        rw [hv, h0]; rfl
      refine ⟨1, Timeout.never, le_refl 1, ?_, ?_⟩
      · rw [get_version_falsy md5 w key hf]
      · rw [get_version_falsy md5 w key hf]
        simp [djSet, alGet_alSet]
    · have ht : pyTruthy (djGetVal w.st (vkeyOf md5 key)) = true := by
        rw [hv]; simp [pyTruthy, h0]
      refine ⟨n, t, by omega, ?_, ?_⟩
      · rw [get_version_truthy md5 w key ht, hv]
      · rw [get_version_truthy md5 w key ht]
        exact h

end SimpleCache

/-! ### Concrete data used by the scenario theorems and witnesses -/

/-- A stand-in for the external `hashlib.md5(...).hexdigest()`; every key in
the scenarios is far below the 230-character limit, so the digest function is
never invoked by them. -/
def md5fix : List Char → List Char := fun _ => "d41d8cd98f00b204e9800998ecf8427e".data

/-- An empty backend (no entries, no calls yet). -/
def w0 : W := ⟨[], []⟩

/-- The backend world after `get("k", lambda: 0)` on an empty backend. -/
def c3w1 : W := (SimpleCache.get md5fix w0 ("k".data) (fun _ => PyVal.int 0) (Timeout.secs 82800)).2.1

/-- The backend world after `getf("k", lambda: None)` on an empty backend. -/
def c2w1 : W := (SimpleCache.getf md5fix w0 ("k".data) (fun _ => PyVal.none) (Timeout.secs 82800)).2.1

/-- The `Widget` entity of the spec's invalidation scenario:
table `widget`, `cache_key_fields = ('id',)`, `cache_key_partitions = ('owner',)`,
`cache_key_all = 'all'`. -/
def widgetModel : MgrModel :=
  ⟨"widget".data, [CKeySpec.single ("id".data)], ["owner".data], "all".data⟩

/-- The scenario instance `Widget(id=1, owner="a")`, as its field-value map. -/
def widgetInst : List Char → PyVal := fun f =>
  if f = "id".data then PyVal.int 1
  else if f = "owner".data then PyVal.str ("a".data) else PyVal.none

/-- The `get(id=1)` keyword arguments. -/
def kwId : Kwargs := ⟨["id".data], widgetInst⟩

/-- The value the Widget producer returns. -/
def item1 : PyVal := PyVal.str ("w1".data)

/-- The shared lookup dict after constructing the Widget manager. -/
def widgetDict : LookupDict := CacheManager.init [] widgetModel

/-- World after the first `get(id=1)` (miss, producer invoked, item cached). -/
def c6w1 : W := (CacheManager.getf md5fix widgetDict widgetModel w0 kwId item1).2.1

/-- World after the invalidation hook runs for the instance. -/
def c6w2 : W := invalidate_cache md5fix widgetModel widgetInst c6w1

/-! ### Claim theorems -/

/-- Claim C1: the claim asserts every character of the transliterated input
outside ordinals 33..126 is replaced by `'-'`.  The code disagrees twice:
`re.sub` is called with `re.UNICODE` (= 32) in the positional `count` slot, so
only the first 32 offending characters are replaced — on an input of 33
newline characters the 33rd newline (ordinal 10) survives into the output —
and the kept character class is `[!-\u007F]`, so DEL (ordinal 127) is
kept verbatim. -/
theorem c1_safe_cache_key_unreplaced_chars : ∀ md5 : List Char → List Char,
    SimpleCache.safe_cache_key md5 (List.replicate 33 '\n') false
      = List.replicate 32 '-' ++ ['\n']
    ∧ SimpleCache.safe_cache_key md5 [Char.ofNat 127] false = [Char.ofNat 127]
    ∧ ('\n').toNat = 10 ∧ (Char.ofNat 127).toNat = 127 :=
  fun _ => ⟨rfl, rfl, rfl, rfl⟩

/-- Claim C2 (counterexample): with a producer that returns `None`, the second
`getf` call on the very same backend state invokes its producer again and
returns `refreshed = true` — the first call's `cache.set` stored `None`, which
`cache.get` cannot distinguish from absence. -/
theorem c2_getf_none_counterexample :
    (SimpleCache.getf md5fix w0 ("k".data) (fun _ => PyVal.none) (Timeout.secs 82800)).1
      = (PyVal.none, true)
    ∧ (SimpleCache.getf md5fix c2w1 ("k".data) (fun _ => PyVal.int 99) (Timeout.secs 82800)).1
      = (PyVal.int 99, true)
    ∧ (SimpleCache.getf md5fix c2w1 ("k".data) (fun _ => PyVal.int 99) (Timeout.secs 82800)).2.2
      = 1 :=
  ⟨rfl, rfl, rfl⟩

/-- Claim C2 (amended): provided the producer does not return `None` (the
backend's absent sentinel), a second `getf` with the same key on the backend
state left by the first call returns the first call's value with
`refreshed = false`, leaves the store unchanged, and does not invoke its
producer. -/
theorem c2_getf_second_call_cached (md5 : List Char → List Char) (w : W) (key : List Char)
    (f g : Unit → PyVal) (ttl ttl' : Timeout) (h : f () ≠ PyVal.none) :
    (SimpleCache.getf md5 (SimpleCache.getf md5 w key f ttl).2.1 key g ttl').1
      = ((SimpleCache.getf md5 w key f ttl).1.1, false)
    ∧ (SimpleCache.getf md5 (SimpleCache.getf md5 w key f ttl).2.1 key g ttl').2.1.st
      = (SimpleCache.getf md5 w key f ttl).2.1.st
    ∧ (SimpleCache.getf md5 (SimpleCache.getf md5 w key f ttl).2.1 key g ttl').2.2 = 0 := by
  by_cases h0 : djGetVal w.st (SimpleCache.safe_cache_key md5 key false) = PyVal.none
  · rw [SimpleCache.getf_miss md5 w key f ttl h0]
    have h1 : djGetVal (djSet ⟨w.st, w.log ++ [BOp.get (SimpleCache.safe_cache_key md5 key false)]⟩
        (SimpleCache.safe_cache_key md5 key false) (f ()) ttl).st
        (SimpleCache.safe_cache_key md5 key false) = f () := by
      simp [djSet, djGetVal, alGet_alSet]
    have h2 : djGetVal (djSet ⟨w.st, w.log ++ [BOp.get (SimpleCache.safe_cache_key md5 key false)]⟩
        (SimpleCache.safe_cache_key md5 key false) (f ()) ttl).st
        (SimpleCache.safe_cache_key md5 key false) ≠ PyVal.none := by
      rw [h1]; exact h
    rw [SimpleCache.getf_hit md5 _ key g ttl' h2, h1]
    exact ⟨rfl, rfl, rfl⟩
  · rw [SimpleCache.getf_hit md5 w key f ttl h0]
    dsimp only
    rw [SimpleCache.getf_hit md5
      ⟨w.st, w.log ++ [BOp.get (SimpleCache.safe_cache_key md5 key false)]⟩ key g ttl' h0]
    exact ⟨rfl, rfl, rfl⟩

/-- Witness for C2 (amended), at a producer returning `5` on an empty backend. -/
theorem c2_getf_second_call_cached_witness :
    ((fun _ : Unit => PyVal.int 5) () ≠ PyVal.none)
    ∧ ((SimpleCache.getf md5fix
          (SimpleCache.getf md5fix w0 ("k".data) (fun _ => PyVal.int 5) (Timeout.secs 82800)).2.1
          ("k".data) (fun _ => PyVal.int 7) (Timeout.secs 82800)).1
        = ((SimpleCache.getf md5fix w0 ("k".data) (fun _ => PyVal.int 5)
            (Timeout.secs 82800)).1.1, false)
      ∧ (SimpleCache.getf md5fix
          (SimpleCache.getf md5fix w0 ("k".data) (fun _ => PyVal.int 5) (Timeout.secs 82800)).2.1
          ("k".data) (fun _ => PyVal.int 7) (Timeout.secs 82800)).2.1.st
        = (SimpleCache.getf md5fix w0 ("k".data) (fun _ => PyVal.int 5)
            (Timeout.secs 82800)).2.1.st
      ∧ (SimpleCache.getf md5fix
          (SimpleCache.getf md5fix w0 ("k".data) (fun _ => PyVal.int 5) (Timeout.secs 82800)).2.1
          ("k".data) (fun _ => PyVal.int 7) (Timeout.secs 82800)).2.2 = 0) :=
  ⟨by decide,
    c2_getf_second_call_cached md5fix w0 ("k".data) (fun _ => PyVal.int 5) (fun _ => PyVal.int 7)
      (Timeout.secs 82800) (Timeout.secs 82800) (by decide)⟩

/-- Claim C3: a present-but-falsy cached value is a hit, not a miss: whenever
the store holds any value other than `None` at the safe key, `getf` returns it
with `refreshed = false`, does not invoke the producer, and leaves the store
unchanged (only a backend `get` is logged). -/
theorem c3_present_falsy_is_hit (md5 : List Char → List Char) (w : W) (key : List Char)
    (v : PyVal) (t : Timeout) (g : Unit → PyVal) (ttl : Timeout) (hv : v ≠ PyVal.none)
    (hs : alGet w.st (SimpleCache.safe_cache_key md5 key false) = some (v, t)) :
    SimpleCache.getf md5 w key g ttl =
      ((v, false), ⟨w.st, w.log ++ [BOp.get (SimpleCache.safe_cache_key md5 key false)]⟩, 0) := by
  have h1 : djGetVal w.st (SimpleCache.safe_cache_key md5 key false) = v := by
    simp [djGetVal, hs]
  have h2 : djGetVal w.st (SimpleCache.safe_cache_key md5 key false) ≠ PyVal.none := by
    rw [h1]; exact hv
  rw [SimpleCache.getf_hit md5 w key g ttl h2, h1]

/-- Witness for C3: the spec's own scenario — after `get("k", lambda: 0)` the
stored value is the falsy `0`, and `get("k", lambda: 99)` returns `0` without
invoking the second producer. -/
theorem c3_present_falsy_is_hit_witness :
    (PyVal.int 0 ≠ PyVal.none)
    ∧ alGet c3w1.st (SimpleCache.safe_cache_key md5fix ("k".data) false)
        = some (PyVal.int 0, Timeout.secs 82800)
    ∧ SimpleCache.getf md5fix c3w1 ("k".data) (fun _ => PyVal.int 99) (Timeout.secs 82800) =
        ((PyVal.int 0, false),
          ⟨c3w1.st, c3w1.log ++ [BOp.get (SimpleCache.safe_cache_key md5fix ("k".data) false)]⟩,
          0) :=
  ⟨by decide, by decide,
    c3_present_falsy_is_hit md5fix c3w1 ("k".data) (PyVal.int 0) (Timeout.secs 82800)
      (fun _ => PyVal.int 99) (Timeout.secs 82800) (by decide) (by decide)⟩

/-- World after a first `get_version('n')` on an empty backend (record = 1). -/
def c4w1 : W := (SimpleCache.get_version md5fix w0 ("n".data)).2

/-- Claim C4: `version(name)` returns `safe_cache_key(name) + ':' + str(v)`
where `v` is `get_version`'s result; a fresh (absent-or-falsy) record yields
`v = 1`; `incr` adds exactly 1 to an existing integer record; and the integer
components of `version()` calls separated by one or more bumps are strictly
increasing (for a record that is absent or holds a non-negative integer, the
only states the module itself produces). -/
theorem c4_version_monotonic (md5 : List Char → List Char) (w : W) (key : List Char) :
    (SimpleCache.version md5 w key).1
      = SimpleCache.safe_cache_key md5 key false
          ++ ':' :: pyStr (SimpleCache.get_version md5 w key).1
    ∧ (pyTruthy (djGetVal w.st (SimpleCache.vkeyOf md5 key)) = false →
        (SimpleCache.get_version md5 w key).1 = PyVal.int 1)
    ∧ (∀ n t, alGet w.st (SimpleCache.vkeyOf md5 key) = some (PyVal.int n, t) →
        alGet (SimpleCache.incrS md5 w key).st (SimpleCache.vkeyOf md5 key)
          = some (PyVal.int (n + 1), t))
    ∧ ((alGet w.st (SimpleCache.vkeyOf md5 key) = Option.none ∨
          ∃ n t, alGet w.st (SimpleCache.vkeyOf md5 key) = some (PyVal.int n, t) ∧ 0 ≤ n) →
        ∀ k : Nat, ∃ a b : Int,
          (SimpleCache.get_version md5 w key).1 = PyVal.int a
          ∧ (SimpleCache.get_version md5
              (SimpleCache.bumpIter md5 key (k + 1) (SimpleCache.get_version md5 w key).2)
              key).1 = PyVal.int b
          ∧ a < b) := by
  refine ⟨?_, ?_, ?_, ?_⟩
  · rcases hgv : SimpleCache.get_version md5 w key with ⟨v, w1⟩
    simp [SimpleCache.version, hgv]
  · intro hf
    rw [SimpleCache.get_version_falsy md5 w key hf]
  · intro n t h
    rw [SimpleCache.incr_int md5 w key n t h]
    simp [alGet_alSet]
  · intro hwf k
    obtain ⟨a, t', ha, hval, hrec⟩ := SimpleCache.get_version_wf md5 w key hwf
    have hb := SimpleCache.bumpIter_int md5 key (k + 1)
      (SimpleCache.get_version md5 w key).2 a t' hrec
    have ht : pyTruthy (djGetVal
        (SimpleCache.bumpIter md5 key (k + 1) (SimpleCache.get_version md5 w key).2).st
        (SimpleCache.vkeyOf md5 key)) = true := by
      simp [djGetVal, hb, pyTruthy]
      omega
    refine ⟨a, a + ((k + 1 : Nat) : Int), hval, ?_, by push_cast; omega⟩
    rw [SimpleCache.get_version_truthy md5 _ key ht]
    simp [djGetVal, hb]

/-- Witness for C4: on an empty backend, `get_version('n')` returns 1 and
after one bump the next `get_version('n')` returns a strictly larger integer;
an `incr` on the record created at 1 stores exactly 2. -/
theorem c4_version_monotonic_witness :
    (alGet w0.st (SimpleCache.vkeyOf md5fix ("n".data)) = Option.none)
    ∧ (∃ a b : Int,
        (SimpleCache.get_version md5fix w0 ("n".data)).1 = PyVal.int a
        ∧ (SimpleCache.get_version md5fix
            (SimpleCache.bumpIter md5fix ("n".data) 1
              (SimpleCache.get_version md5fix w0 ("n".data)).2) ("n".data)).1 = PyVal.int b
        ∧ a < b)
    ∧ alGet c4w1.st (SimpleCache.vkeyOf md5fix ("n".data))
        = some (PyVal.int 1, Timeout.never)
    ∧ alGet (SimpleCache.incrS md5fix c4w1 ("n".data)).st (SimpleCache.vkeyOf md5fix ("n".data))
        = some (PyVal.int (1 + 1), Timeout.never) :=
  ⟨rfl, (c4_version_monotonic md5fix w0 ("n".data)).2.2.2 (Or.inl rfl) 0, by decide,
    (c4_version_monotonic md5fix c4w1 ("n".data)).2.2.1 1 Timeout.never (by decide)⟩

/-- Undeclared keyword arguments for the C5 witness (`get(color="red")`). -/
def kwColor : Kwargs := ⟨["color".data], fun _ => PyVal.str ("red".data)⟩

/-- Claim C5: a `getf` whose canonical sorted argument-name tuple is not in
the declared field-set dict, and a `partitionf` with an undeclared partition
name, raise the programmer error (the source's `assert` / the spec's
ConfigurationError) with the backend world returned exactly as it was —
no backend call of any kind is logged and the producer is never invoked. -/
theorem c5_undeclared_lookup_error (md5 : List Char → List Char) (d : LookupDict) (m : MgrModel)
    (w : W) (kw : Kwargs) (ormGet : PyVal)
    (h : alGet d (CacheManager.generate_cache_key_dict_key kw.names) = Option.none) :
    CacheManager.getf md5 d m w kw ormGet = (Except.error PyErr.assertionError, w, 0)
    ∧ ∀ (p : List Char) (v ormF : PyVal), p ∉ m.cache_key_partitions →
        CacheManager.partitionf md5 m w p v ormF = (Except.error PyErr.assertionError, w, 0) := by
  constructor
  · simp [CacheManager.getf, h]
  · intro p v ormF hp
    simp [CacheManager.partitionf, hp]

/-- Witness for C5: `get(color="red")` against the Widget declarations, and
`partitionf("color", ...)`, both error with the world untouched. -/
theorem c5_undeclared_lookup_error_witness :
    (alGet ([] : LookupDict) (CacheManager.generate_cache_key_dict_key kwColor.names)
      = Option.none)
    ∧ ("color".data ∉ widgetModel.cache_key_partitions)
    ∧ CacheManager.getf md5fix [] widgetModel w0 kwColor PyVal.none
        = (Except.error PyErr.assertionError, w0, 0)
    ∧ CacheManager.partitionf md5fix widgetModel w0 ("color".data) (PyVal.str ("red".data))
        PyVal.none = (Except.error PyErr.assertionError, w0, 0) :=
  ⟨rfl, by decide,
    (c5_undeclared_lookup_error md5fix [] widgetModel w0 kwColor PyVal.none rfl).1,
    (c5_undeclared_lookup_error md5fix [] widgetModel w0 kwColor PyVal.none rfl).2
      ("color".data) (PyVal.str ("red".data)) PyVal.none (by decide)⟩

/-- Claim C6: the spec's invalidation scenario.  `get(id=1)` misses and caches
the produced item; the invalidation hook bumps the field-set version
`widget-id-1.version` from 1 to 2, creates the partition version
`widget-owner-a.version` at 1 and the `widget-all.version` at 1; the following
`get(id=1)` addresses the new versioned key `widget-id-1:2` (distinct from the
old `widget-id-1:1`, which is left behind) and invokes the producer again. -/
theorem c6_invalidation_scenario :
    (CacheManager.getf md5fix widgetDict widgetModel w0 kwId item1).1 = Except.ok (item1, true)
    ∧ (CacheManager.getf md5fix widgetDict widgetModel w0 kwId item1).2.2 = 1
    ∧ alGet c6w1.st ("widget-id-1.version".data) = some (PyVal.int 1, Timeout.never)
    ∧ alGet c6w2.st ("widget-id-1.version".data) = some (PyVal.int 2, Timeout.never)
    ∧ alGet c6w2.st ("widget-owner-a.version".data) = some (PyVal.int 1, Timeout.defaultT)
    ∧ alGet c6w2.st ("widget-all.version".data) = some (PyVal.int 1, Timeout.defaultT)
    ∧ (CacheManager.getf md5fix widgetDict widgetModel c6w2 kwId item1).1
        = Except.ok (item1, true)
    ∧ (CacheManager.getf md5fix widgetDict widgetModel c6w2 kwId item1).2.2 = 1
    ∧ alGet (CacheManager.getf md5fix widgetDict widgetModel c6w2 kwId item1).2.1.st
        ("widget-id-1:2".data) = some (item1, Timeout.secs 82800)
    ∧ alGet (CacheManager.getf md5fix widgetDict widgetModel c6w2 kwId item1).2.1.st
        ("widget-id-1:1".data) = some (item1, Timeout.secs 82800)
    ∧ ("widget-id-1:1".data ≠ "widget-id-1:2".data) :=
  ⟨rfl, rfl, rfl, rfl, rfl, rfl, rfl, rfl, rfl, rfl, by decide⟩

/-- Claim C7 (counterexample): the `incr` fallback creation on an absent
record (`cache.add(version_key, 1)`) stores the version record with the
backend's default timeout, not with "no expiry". -/
theorem c7_version_ttl_counterexample :
    alGet (SimpleCache.incrS md5fix w0 ("n".data)).st ("n.version".data)
      = some (PyVal.int 1, Timeout.defaultT)
    ∧ Timeout.defaultT ≠ Timeout.never :=
  ⟨rfl, by decide⟩

/-- Claim C7 (amended): the lazy creation in `get_version` writes the version
record with TTL `None` (no expiry), but the creation on the `incr` fallback
path calls `add` without a timeout argument and therefore stores the record
with the backend's default timeout. -/
theorem c7_version_record_writes (md5 : List Char → List Char) (w : W) (key : List Char) :
    (pyTruthy (djGetVal w.st (SimpleCache.vkeyOf md5 key)) = false →
      alGet (SimpleCache.get_version md5 w key).2.st (SimpleCache.vkeyOf md5 key)
        = some (PyVal.int 1, Timeout.never))
    ∧ (alGet w.st (SimpleCache.vkeyOf md5 key) = Option.none →
      alGet (SimpleCache.incrS md5 w key).st (SimpleCache.vkeyOf md5 key)
        = some (PyVal.int 1, Timeout.defaultT)) := by
  constructor
  · intro hf
    rw [SimpleCache.get_version_falsy md5 w key hf]
    simp [djSet, alGet_alSet]
  · intro h
    rw [SimpleCache.incr_absent md5 w key h]
    simp [alGet_alSet]

/-- Witness for C7 (amended), on an empty backend for the name `'n'`. -/
theorem c7_version_record_writes_witness :
    (pyTruthy (djGetVal w0.st (SimpleCache.vkeyOf md5fix ("n".data))) = false)
    ∧ (alGet w0.st (SimpleCache.vkeyOf md5fix ("n".data)) = Option.none)
    ∧ alGet (SimpleCache.get_version md5fix w0 ("n".data)).2.st
        (SimpleCache.vkeyOf md5fix ("n".data)) = some (PyVal.int 1, Timeout.never)
    ∧ alGet (SimpleCache.incrS md5fix w0 ("n".data)).st
        (SimpleCache.vkeyOf md5fix ("n".data)) = some (PyVal.int 1, Timeout.defaultT) :=
  ⟨rfl, rfl, (c7_version_record_writes md5fix w0 ("n".data)).1 rfl,
    (c7_version_record_writes md5fix w0 ("n".data)).2 rfl⟩

/-- Entity for the C8 declared-order check: field-set declared as `("b","a")`
(declared order differs from sorted order). -/
def mBA : MgrModel := ⟨"t".data, [CKeySpec.multi ["b".data, "a".data]], [], "all".data⟩

/-- Lookup dict after constructing the `mBA` manager. -/
def dBA : LookupDict := CacheManager.init [] mBA

/-- Kwargs passed in sorted (not declared) order: `a=2, b=1`. -/
def kwAB : Kwargs := ⟨["a".data, "b".data], fun f => if f = "a".data then PyVal.int 2 else PyVal.int 1⟩

/-- Claim C8: the manager's `getf` output is invariant under permuting the
keyword arguments (it canonicalizes the names by sorting and reads values from
the dict), and the composite key it versioned is built in the declared field
order, not the sorted or call-site order: with declaration `("b","a")` and the
call `getf(a=2, b=1)`, the first backend call is a `get` of
`t-b-1-a-2.version`. -/
theorem c8_declared_order_perm_invariant (md5 : List Char → List Char) (d : LookupDict)
    (m : MgrModel) (w : W) (ormGet : PyVal) (kw1 kw2 : Kwargs)
    (hn : kw1.names.Perm kw2.names) (hv : kw1.val = kw2.val) :
    CacheManager.getf md5 d m w kw1 ormGet = CacheManager.getf md5 d m w kw2 ormGet
    ∧ ((CacheManager.getf md5fix dBA mBA w0 kwAB (PyVal.str ("x".data))).2.1.log).head?
        = some (BOp.get ("t-b-1-a-2.version".data)) := by
  constructor
  · have hk : CacheManager.generate_cache_key_dict_key kw1.names
        = CacheManager.generate_cache_key_dict_key kw2.names :=
      sortNames_perm_eq hn
    unfold CacheManager.getf
    rw [hk, hv]
  · rfl

/-- Witness for C8: the same field-value pairs supplied in the two possible
orders give identical `getf` results. -/
theorem c8_declared_order_perm_invariant_witness :
    ((["a".data, "b".data] : List (List Char)).Perm ["b".data, "a".data])
    ∧ CacheManager.getf md5fix dBA mBA w0 kwAB (PyVal.str ("x".data))
        = CacheManager.getf md5fix dBA mBA w0 ⟨["b".data, "a".data], kwAB.val⟩
            (PyVal.str ("x".data)) :=
  ⟨by decide,
    (c8_declared_order_perm_invariant md5fix dBA mBA w0 (PyVal.str ("x".data)) kwAB
      ⟨["b".data, "a".data], kwAB.val⟩ (by decide) rfl).1⟩

/-- Claim C9: `incr(n1)` touches no backend key other than n1's version key
`safe_cache_key(n1) + '.version'`: every other entry — in particular the
version record of any name with a different safe key, and every cached item —
is unchanged. -/
theorem c9_incr_frame (md5 : List Char → List Char) (w : W) (n1 n2 : List Char)
    (hsk : SimpleCache.safe_cache_key md5 n1 false ≠ SimpleCache.safe_cache_key md5 n2 false) :
    (∀ j, j ≠ SimpleCache.vkeyOf md5 n1 →
      alGet (SimpleCache.incrS md5 w n1).st j = alGet w.st j)
    ∧ alGet (SimpleCache.incrS md5 w n1).st (SimpleCache.vkeyOf md5 n2)
        = alGet w.st (SimpleCache.vkeyOf md5 n2) := by
  have hfr : ∀ j, j ≠ SimpleCache.vkeyOf md5 n1 →
      alGet (SimpleCache.incrS md5 w n1).st j = alGet w.st j :=
    fun j hj => SimpleCache.incrS_frame md5 w n1 j hj
  refine ⟨hfr, hfr _ ?_⟩
  intro heq
  simp only [SimpleCache.vkeyOf] at heq
  exact hsk (List.append_cancel_right heq).symm

/-- Witness for C9: bumping `'a'` in the scenario world leaves the unrelated
key `'x'` and the version record of `'b'` untouched. -/
theorem c9_incr_frame_witness :
    (SimpleCache.safe_cache_key md5fix ("a".data) false
      ≠ SimpleCache.safe_cache_key md5fix ("b".data) false)
    ∧ ("x".data ≠ SimpleCache.vkeyOf md5fix ("a".data))
    ∧ alGet (SimpleCache.incrS md5fix c6w1 ("a".data)).st ("x".data)
        = alGet c6w1.st ("x".data)
    ∧ alGet (SimpleCache.incrS md5fix c6w1 ("a".data)).st (SimpleCache.vkeyOf md5fix ("b".data))
        = alGet c6w1.st (SimpleCache.vkeyOf md5fix ("b".data)) :=
  ⟨by decide, by decide,
    (c9_incr_frame md5fix c6w1 ("a".data) ("b".data) (by decide)).1 ("x".data) (by decide),
    (c9_incr_frame md5fix c6w1 ("a".data) ("b".data) (by decide)).2⟩

/-- Entity A for the C10 shared-dict check. -/
def mgrA : MgrModel := ⟨"a_tab".data, [CKeySpec.single ("id".data)], [], "all".data⟩

/-- Entity B for the C10 shared-dict check (declares the `owner` field-set). -/
def mgrB : MgrModel := ⟨"b_tab".data, [CKeySpec.single ("owner".data)], [], "all".data⟩

/-- Lookup dict after constructing only A's manager. -/
def dA : LookupDict := CacheManager.init [] mgrA

/-- The same (shared, class-level) dict after additionally constructing B's
manager. -/
def dAB : LookupDict := CacheManager.init dA mgrB

/-- Kwargs naming only B's declared field-set. -/
def kwOwner : Kwargs := ⟨["owner".data], fun f => if f = "owner".data then PyVal.int 7 else PyVal.none⟩

/-- Claim C10: `_cache_key_fields_lookup` is one class-level dict shared by all
managers: after A's construction alone the `owner` field-set is undeclared,
but once B's manager is constructed into the same dict, a `getf` on A's
manager with B's argument names passes validation and proceeds to the backend
(producer invoked, no ConfigurationError). -/
theorem c10_shared_lookup_dict :
    alGet dA (CacheManager.generate_cache_key_dict_key kwOwner.names) = Option.none
    ∧ alGet dAB (CacheManager.generate_cache_key_dict_key kwOwner.names)
        = some [ "owner".data ]
    ∧ (CacheManager.getf md5fix dAB mgrA w0 kwOwner (PyVal.str ("bv".data))).1
        = Except.ok (PyVal.str ("bv".data), true)
    ∧ (CacheManager.getf md5fix dAB mgrA w0 kwOwner (PyVal.str ("bv".data))).2.2 = 1 :=
  ⟨rfl, rfl, rfl, rfl⟩
